import Mathlib

/-!
Verification of the swarmkit resource object table
(`manager/state/store/resources.go`).

The file embeds the resource table plugin: the CRUD entry points
(CreateResource, UpdateResource, DeleteResource, GetResource,
FindResources), the snapshot hooks (Save, Restore), the replicated
action dispatcher (ApplyStoreAction), the referential integrity helper
(confirmExtension) and the by-kind indexer.  The storage engine's
transaction primitives, the selector types and the extension lookup are
code of the repository outside the provided source file; they are
modelled from the specification and marked as such in their doc
comments.
-/

/-- A resource row: `ID` (globally unique), `Name` (globally unique),
`Kind` (names the governing extension) and the custom index attributes
carried in the annotations. -/
structure Resource where
  ID : String
  Name : String
  Kind : String
  Custom : List String
deriving DecidableEq, Repr

/-- Modelled from the spec: the pending state of a transaction restricted
to what the resource table consults — the resource rows (index contents
are always consistent with row contents within a transaction, so indexes
are derived from the rows) and the names of the registered extensions
(the external kind registry consulted by the referential check). -/
structure StoreState where
  resources : List Resource
  extensions : List String
deriving DecidableEq, Repr

/-- The abstract error kinds surfaced by the table: `ErrExist`,
`ErrNotExist`, `ErrInvalidFindBy`, `errUnknownStoreAction`, the
"object kind %s is unregistered" error of `confirmExtension`, and the
wrapper produced by `errors.Wrap`. -/
inductive StoreError where
  | alreadyExists : StoreError
  | notFound : StoreError
  | invalidQuery : StoreError
  | unknownAction : StoreError
  | kindUnregistered (kind : String) : StoreError
  | wrapped (msg : String) (e : StoreError) : StoreError
deriving DecidableEq, Repr

/-- The selectors (`By` values) relevant to the resource table: the
match-everything selector `All`, the five modes accepted by
`FindResources`, and `byService` as a representative selector some other
table supports but this one does not. -/
inductive By where
  | all : By
  | byIDPfx (p : String) : By
  | byName (n : String) : By
  | byKind (k : String) : By
  | byCustom (v : String) : By
  | byCustomPfx (p : String) : By
  | byService (id : String) : By
deriving DecidableEq, Repr

/-- The slice of `api.StoreSnapshot` the resource table touches: its
`Resources` field. -/
structure StoreSnapshot where
  Resources : List Resource
deriving DecidableEq, Repr

/-- `api.StoreActionKind` is an integer enumeration. -/
abbrev StoreActionKind := Int

def StoreActionKindUnknown : StoreActionKind := 0

def StoreActionKindCreate : StoreActionKind := 1

def StoreActionKindUpdate : StoreActionKind := 2

def StoreActionKindRemove : StoreActionKind := 3

/-- The `Target` oneof of `api.StoreAction`: a resource payload, or one
of the other object types (represented here by `node`, `service` and
`extensionTarget`), which this table does not recognize. -/
inductive StoreActionTarget where
  | node (id : String) : StoreActionTarget
  | service (id : String) : StoreActionTarget
  | extensionTarget (id : String) : StoreActionTarget
  | resource (r : Resource) : StoreActionTarget
deriving DecidableEq, Repr

/-- One replicated mutation action: an action kind tag and a target. -/
structure StoreAction where
  Action : StoreActionKind
  Target : StoreActionTarget
deriving DecidableEq, Repr

/-- Modelled from the spec: the storage engine's primitive
`tx.create(table, obj)` (the `Transaction` contract, not in the provided
source).  ID uniqueness and Name uniqueness are enforced transactionally;
a violation fails atomically with `AlreadyExists` and no partial index
update.  On success the row is inserted. -/
def txCreate (rows : List Resource) (r : Resource) : Except StoreError (List Resource) :=
  if rows.any (fun x => x.ID = r.ID || x.Name = r.Name) then
    Except.error StoreError.alreadyExists
  else
    Except.ok (rows ++ [r])

/-- Modelled from the spec: the storage engine's primitive
`tx.update(table, obj)` (not in the provided source).  An absent ID
fails with `NotFound`; otherwise the row is replaced in place and all
index entries recomputed. -/
def txUpdate (rows : List Resource) (r : Resource) : Except StoreError (List Resource) :=
  if rows.any (fun x => x.ID = r.ID) then
    Except.ok (rows.map (fun x => if x.ID = r.ID then r else x))
  else
    Except.error StoreError.notFound

/-- Modelled from the spec: the storage engine's primitive
`tx.delete(table, id)` (not in the provided source).  An absent ID fails
with `NotFound`; otherwise the row and all its index entries are
removed. -/
def txDelete (rows : List Resource) (id : String) : Except StoreError (List Resource) :=
  if rows.any (fun x => x.ID = id) then
    Except.ok (rows.filter (fun x => x.ID ≠ id))
  else
    Except.error StoreError.notFound

/-- Modelled from the spec: the storage engine's primitive
`tx.get(table, id)` (not in the provided source): the object or an
absent result. -/
def txGet (rows : List Resource) (id : String) : Option Resource :=
  rows.find? (fun x => x.ID = id)

/-- Modelled from the spec: which rows each supported selector matches —
by-ID-prefix (prefix scan on the unique ID index), by-name (exact),
by-kind (exact), by-custom-attribute (exact), by-custom-attribute-prefix
(prefix scan).  The selector evaluation lives in the storage layer, not
in the provided source. -/
def matchesBy (b : By) (r : Resource) : Bool :=
  match b with
  | By.all => true
  | By.byIDPfx p => p.isPrefixOf r.ID
  | By.byName n => r.Name = n
  | By.byKind k => r.Kind = k
  | By.byCustom v => r.Custom.contains v
  | By.byCustomPfx p => r.Custom.any (fun c => p.isPrefixOf c)
  | By.byService _ => false

/-- Modelled from the spec: the storage engine's primitive
`tx.find(table, selector, typeGuard, collect)` (not in the provided
source).  The match-everything selector is handled generically by the
transaction layer — `Save` exports all rows through it and fails only if
the underlying read fails — while every other selector is first vetted
by the table's type guard and rejected with the guard's error. -/
def txFind (rows : List Resource) (b : By) (checkType : By → Except StoreError Unit) :
    Except StoreError (List Resource) :=
  match b with
  | By.all => Except.ok rows
  | _ =>
    match checkType b with
    | Except.error e => Except.error e
    | Except.ok _ => Except.ok (rows.filter (matchesBy b))

/-- Modelled from the spec: the extension registry query "find
extensions by name" (the extensions table is not in the provided
source), used only for the referential integrity check. -/
def FindExtensions (s : StoreState) (b : By) : Except StoreError (List String) :=
  match b with
  | By.byName n => Except.ok (s.extensions.filter (fun x => x = n))
  | _ => Except.error StoreError.invalidQuery

/-- `confirmExtension`: there must be an extension corresponding to the
`Kind` field; a lookup failure is wrapped, zero matches is the
"object kind is unregistered" error. -/
def confirmExtension (s : StoreState) (r : Resource) : Except StoreError Unit :=
  match FindExtensions s (By.byName r.Kind) with
  | Except.error e => Except.error (StoreError.wrapped "failed to query extensions" e)
  | Except.ok extensions =>
    if extensions.length = 0 then
      Except.error (StoreError.kindUnregistered r.Kind)
    else
      Except.ok ()

/-- `CreateResource`: adds a new resource object to the store after the
referential integrity check. -/
def CreateResource (s : StoreState) (r : Resource) : Except StoreError StoreState :=
  match confirmExtension s r with
  | Except.error e => Except.error e
  | Except.ok _ =>
    match txCreate s.resources r with
    | Except.error e => Except.error e
    | Except.ok rows => Except.ok { s with resources := rows }

/-- `UpdateResource`: updates an existing resource object in the store
after the referential integrity check. -/
def UpdateResource (s : StoreState) (r : Resource) : Except StoreError StoreState :=
  match confirmExtension s r with
  | Except.error e => Except.error e
  | Except.ok _ =>
    match txUpdate s.resources r with
    | Except.error e => Except.error e
    | Except.ok rows => Except.ok { s with resources := rows }

/-- `DeleteResource`: removes a resource object from the store. -/
def DeleteResource (s : StoreState) (id : String) : Except StoreError StoreState :=
  match txDelete s.resources id with
  | Except.error e => Except.error e
  | Except.ok rows => Except.ok { s with resources := rows }

/-- `GetResource`: looks up a resource object by ID; `none` if absent. -/
def GetResource (s : StoreState) (id : String) : Option Resource :=
  txGet s.resources id

/-- The `checkType` closure of `FindResources`: the five accepted
selector modes; everything else is `ErrInvalidFindBy`. -/
def resourceCheckType (b : By) : Except StoreError Unit :=
  match b with
  | By.byIDPfx _ => Except.ok ()
  | By.byName _ => Except.ok ()
  | By.byKind _ => Except.ok ()
  | By.byCustom _ => Except.ok ()
  | By.byCustomPfx _ => Except.ok ()
  | _ => Except.error StoreError.invalidQuery

/-- `FindResources`: selects a set of resource objects through the
transaction's find primitive, guarded by `resourceCheckType`. -/
def FindResources (s : StoreState) (b : By) : Except StoreError (List Resource) :=
  txFind s.resources b resourceCheckType

/-- The `Save` hook: exports all rows via `FindResources(tx, All)` into
the snapshot's `Resources` field. -/
def Save (s : StoreState) (snapshot : StoreSnapshot) : Except StoreError StoreSnapshot :=
  match FindResources s By.all with
  | Except.error e => Except.error e
  | Except.ok rows => Except.ok { snapshot with Resources := rows }

/-- The first loop of the `Restore` hook: delete each listed row,
returning on the first error. -/
def deleteList (s : StoreState) (rs : List Resource) : Except StoreError StoreState :=
  match rs with
  | [] => Except.ok s
  | r :: rest =>
    match DeleteResource s r.ID with
    | Except.error e => Except.error e
    | Except.ok s1 => deleteList s1 rest

/-- The second loop of the `Restore` hook: create each snapshot row in
order, returning on the first error. -/
def createList (s : StoreState) (rs : List Resource) : Except StoreError StoreState :=
  match rs with
  | [] => Except.ok s
  | r :: rest =>
    match CreateResource s r with
    | Except.error e => Except.error e
    | Except.ok s1 => createList s1 rest

/-- The `Restore` hook: find every currently stored row, delete each,
then create every snapshot row in order; any per-row error aborts. -/
def Restore (s : StoreState) (snapshot : StoreSnapshot) : Except StoreError StoreState :=
  match FindResources s By.all with
  | Except.error e => Except.error e
  | Except.ok rows =>
    match deleteList s rows with
    | Except.error e => Except.error e
    | Except.ok s1 => createList s1 snapshot.Resources

/-- The `ApplyStoreAction` hook: dispatch on the action's target and
kind; any combination not handled by the switch falls through to
`errUnknownStoreAction`. -/
def ApplyStoreAction (s : StoreState) (sa : StoreAction) : Except StoreError StoreState :=
  match sa.Target with
  | StoreActionTarget.resource r =>
    if sa.Action = StoreActionKindCreate then CreateResource s r
    else if sa.Action = StoreActionKindUpdate then UpdateResource s r
    else if sa.Action = StoreActionKindRemove then DeleteResource s r.ID
    else Except.error StoreError.unknownAction
  | _ => Except.error StoreError.unknownAction

/-- The key produced by `resourceIndexerByKind.FromObject`: the `Kind`
string with the null character added as a terminator (bytes modelled as
characters). -/
def resourceIndexerByKindKey (r : Resource) : List Char :=
  r.Kind.data ++ [Char.ofNat 0]

/-- `resourceIndexerByKind.FromObject`: always indexes the object
(first component `true`) under the null-terminated kind key. -/
def resourceIndexerByKindFromObject (r : Resource) : Bool × List Char :=
  (true, resourceIndexerByKindKey r)

/-! ## Helper lemmas -/

theorem txCreate_ok_inv (rows : List Resource) (r : Resource) (rows2 : List Resource)
    (h : txCreate rows r = Except.ok rows2) : rows2 = rows ++ [r] := by
  unfold txCreate at h
  split at h
  · exact Except.noConfusion h
  · injection h with h
    exact h.symm

theorem confirmExtension_congr (s1 s2 : StoreState) (r : Resource)
    (h : s1.extensions = s2.extensions) : confirmExtension s1 r = confirmExtension s2 r := by
  simp [confirmExtension, FindExtensions, h]

theorem confirmExtension_ok_of_mem (s : StoreState) (r : Resource)
    (hk : r.Kind ∈ s.extensions) : confirmExtension s r = Except.ok () := by
  have hmem : r.Kind ∈ s.extensions.filter (fun x => x = r.Kind) :=
    List.mem_filter.mpr ⟨hk, by simp⟩
  have hne : s.extensions.filter (fun x => x = r.Kind) ≠ [] := List.ne_nil_of_mem hmem
  simp [confirmExtension, FindExtensions, List.length_eq_zero, hne]

theorem confirmExtension_err_of_not_mem (s : StoreState) (r : Resource)
    (hk : r.Kind ∉ s.extensions) : confirmExtension s r = Except.error (StoreError.kindUnregistered r.Kind) := by
  have hfil : s.extensions.filter (fun x => x = r.Kind) = [] := by
    simp only [List.filter_eq_nil_iff, decide_eq_true_eq]
    intro a ha hEq
    exact hk (hEq ▸ ha)
  simp [confirmExtension, FindExtensions, hfil]

theorem createResource_ok_inv (s : StoreState) (r : Resource) (s2 : StoreState)
    (h : CreateResource s r = Except.ok s2) :
    s2.resources = s.resources ++ [r] ∧ s2.extensions = s.extensions ∧
      confirmExtension s r = Except.ok () := by
  unfold CreateResource at h
  cases hc : confirmExtension s r with
  | error e => rw [hc] at h; exact Except.noConfusion h
  | ok u =>
    rw [hc] at h
    cases ht : txCreate s.resources r with
    | error e => rw [ht] at h; exact Except.noConfusion h
    | ok rows =>
      rw [ht] at h
      injection h with h
      subst h
      exact ⟨txCreate_ok_inv _ _ _ ht, rfl, rfl⟩

theorem createList_ok_inv (l : List Resource) : ∀ (s s2 : StoreState),
    createList s l = Except.ok s2 →
    s2.resources = s.resources ++ l ∧ s2.extensions = s.extensions ∧
      ∀ r ∈ l, confirmExtension s r = Except.ok () := by
  induction l with
  | nil =>
    intro s s2 h
    unfold createList at h
    injection h with h
    subst h
    simp
  | cons r rest ih =>
    intro s s2 h
    unfold createList at h
    cases hc : CreateResource s r with
    | error e => rw [hc] at h; exact Except.noConfusion h
    | ok s1 =>
      rw [hc] at h
      obtain ⟨hres1, hext1, hconf1⟩ := createResource_ok_inv s r s1 hc
      obtain ⟨hres2, hext2, hconf2⟩ := ih s1 s2 h
      refine ⟨by rw [hres2, hres1, List.append_assoc]; rfl, by rw [hext2, hext1], ?_⟩
      intro x hx
      rcases List.mem_cons.mp hx with hx | hx
      · subst hx; exact hconf1
      · rw [← confirmExtension_congr s1 s x hext1]
        exact hconf2 x hx

theorem deleteList_wipe (l : List Resource) : ∀ s : StoreState, s.resources = l →
    (l.map Resource.ID).Nodup → deleteList s l = Except.ok { s with resources := [] } := by
  induction l with
  | nil =>
    intro s hs _
    unfold deleteList
    cases s
    simp_all
  | cons r rest ih =>
    intro s hs hnd
    obtain ⟨res, exts⟩ := s
    have hres : res = r :: rest := hs
    subst hres
    simp only [List.map_cons, List.nodup_cons] at hnd
    have hnotin : r.ID ∉ rest.map Resource.ID := hnd.1
    have hfil : List.filter (fun x => !decide (x.ID = r.ID)) rest = rest := by
      apply List.filter_eq_self.mpr
      intro x hx
      have hne : x.ID ≠ r.ID := fun hEq => hnotin (hEq ▸ List.mem_map_of_mem Resource.ID hx)
      simp [hne]
    have hdel : DeleteResource { resources := r :: rest, extensions := exts } r.ID =
        Except.ok { resources := rest, extensions := exts } := by
      simp [DeleteResource, txDelete, hfil]
    unfold deleteList
    rw [hdel]
    exact ih { resources := rest, extensions := exts } rfl hnd.2

theorem restore_unfold (s : StoreState) (snapshot : StoreSnapshot) :
    Restore s snapshot =
      (match deleteList s s.resources with
       | Except.error e => Except.error e
       | Except.ok s1 => createList s1 snapshot.Resources) := rfl

/-! ## Claim theorems -/

/-- C2: `ApplyStoreAction` with a Resource target dispatches Create to
`CreateResource`, Update to `UpdateResource` and Remove to
`DeleteResource` on the payload's ID, returning that call's result; any
action whose target is not a Resource fails with the UnknownAction
error. -/
theorem applyStoreAction_dispatch (s : StoreState) (r : Resource) (t : StoreActionTarget)
    (k : StoreActionKind) (ht : ∀ x, t ≠ StoreActionTarget.resource x) :
    ApplyStoreAction s { Action := StoreActionKindCreate, Target := StoreActionTarget.resource r } =
      CreateResource s r ∧
    ApplyStoreAction s { Action := StoreActionKindUpdate, Target := StoreActionTarget.resource r } =
      UpdateResource s r ∧
    ApplyStoreAction s { Action := StoreActionKindRemove, Target := StoreActionTarget.resource r } =
      DeleteResource s r.ID ∧
    ApplyStoreAction s { Action := k, Target := t } = Except.error StoreError.unknownAction := by
  refine ⟨?_, ?_, ?_, ?_⟩
  · simp [ApplyStoreAction]
  · simp [ApplyStoreAction, StoreActionKindCreate, StoreActionKindUpdate]
  · simp [ApplyStoreAction, StoreActionKindCreate, StoreActionKindUpdate, StoreActionKindRemove]
  · cases t with
    | node i => rfl
    | service i => rfl
    | extensionTarget i => rfl
    | resource x => exact absurd rfl (ht x)

/-- Witness for C2 at concrete inputs. -/
theorem applyStoreAction_dispatch_witness :
    ApplyStoreAction { resources := [], extensions := [] }
        { Action := StoreActionKindCreate,
          Target := StoreActionTarget.resource { ID := "i", Name := "n", Kind := "k", Custom := [] } } =
      CreateResource { resources := [], extensions := [] }
        { ID := "i", Name := "n", Kind := "k", Custom := [] } ∧
    ApplyStoreAction { resources := [], extensions := [] }
        { Action := StoreActionKindUnknown, Target := StoreActionTarget.node "n1" } =
      Except.error StoreError.unknownAction := by
  have h := applyStoreAction_dispatch { resources := [], extensions := [] }
    { ID := "i", Name := "n", Kind := "k", Custom := [] } (StoreActionTarget.node "n1")
    StoreActionKindUnknown (fun x h => StoreActionTarget.noConfusion h)
  exact ⟨h.1, h.2.2.2⟩

/-- C10: `ApplyStoreAction` on a Resource target with an action kind
that is none of Create, Update or Remove performs no mutation and falls
through to the same UnknownAction error used for unrecognized
targets. -/
theorem applyStoreAction_unknown_kind (s : StoreState) (r : Resource) (k : StoreActionKind)
    (h1 : k ≠ StoreActionKindCreate) (h2 : k ≠ StoreActionKindUpdate)
    (h3 : k ≠ StoreActionKindRemove) :
    ApplyStoreAction s { Action := k, Target := StoreActionTarget.resource r } =
      Except.error StoreError.unknownAction := by
  simp [ApplyStoreAction, h1, h2, h3]

/-- Witness for C10: the Unknown action kind (tag 0) on a Resource
target. -/
theorem applyStoreAction_unknown_kind_witness :
    StoreActionKindUnknown ≠ StoreActionKindCreate ∧
    ApplyStoreAction { resources := [], extensions := [] }
        { Action := StoreActionKindUnknown,
          Target := StoreActionTarget.resource { ID := "i", Name := "n", Kind := "k", Custom := [] } } =
      Except.error StoreError.unknownAction :=
  ⟨by decide,
    applyStoreAction_unknown_kind { resources := [], extensions := [] }
      { ID := "i", Name := "n", Kind := "k", Custom := [] } StoreActionKindUnknown
      (by decide) (by decide) (by decide)⟩

/-- C4: `CreateResource` on a resource whose Kind matches no registered
extension fails with the KindUnregistered error and never yields a new
state: the rows (and the index entries derived from them) are exactly as
before the call. -/
theorem createResource_unregistered_kind (s : StoreState) (r : Resource)
    (hk : r.Kind ∉ s.extensions) :
    CreateResource s r = Except.error (StoreError.kindUnregistered r.Kind) ∧
    ∀ s2, CreateResource s r ≠ Except.ok s2 := by
  have h1 : CreateResource s r = Except.error (StoreError.kindUnregistered r.Kind) := by
    unfold CreateResource
    rw [confirmExtension_err_of_not_mem s r hk]
  exact ⟨h1, fun s2 hc => by rw [h1] at hc; exact Except.noConfusion hc⟩

/-- Witness for C4: kind "web" against a registry holding only
"volume". -/
theorem createResource_unregistered_kind_witness :
    ("web" : String) ∉ (["volume"] : List String) ∧
    CreateResource { resources := [], extensions := ["volume"] }
        { ID := "r1", Name := "n1", Kind := "web", Custom := [] } =
      Except.error (StoreError.kindUnregistered "web") :=
  ⟨by decide,
    (createResource_unregistered_kind { resources := [], extensions := ["volume"] }
      { ID := "r1", Name := "n1", Kind := "web", Custom := [] } (by decide)).1⟩

/-- C5: the referential integrity check is an exact-name extension
lookup on the object's Kind; zero matches makes the check — and hence
Create and Update, before any storage mutation — fail with
KindUnregistered, one or more matches makes the check succeed, and
Delete never consults the extension registry at all. -/
theorem confirmExtension_policy (s : StoreState) (r : Resource) (id : String) :
    FindExtensions s (By.byName r.Kind) =
      Except.ok (s.extensions.filter (fun x => x = r.Kind)) ∧
    ((s.extensions.filter (fun x => x = r.Kind)).length = 0 →
      confirmExtension s r = Except.error (StoreError.kindUnregistered r.Kind) ∧
      CreateResource s r = Except.error (StoreError.kindUnregistered r.Kind) ∧
      UpdateResource s r = Except.error (StoreError.kindUnregistered r.Kind)) ∧
    ((s.extensions.filter (fun x => x = r.Kind)).length ≠ 0 →
      confirmExtension s r = Except.ok ()) ∧
    (∀ E, (DeleteResource { s with extensions := E } id).map StoreState.resources =
      (DeleteResource s id).map StoreState.resources) := by
  refine ⟨rfl, ?_, ?_, ?_⟩
  · intro h
    have hc : confirmExtension s r = Except.error (StoreError.kindUnregistered r.Kind) := by
      simp [confirmExtension, FindExtensions, h]
    exact ⟨hc, by unfold CreateResource; rw [hc], by unfold UpdateResource; rw [hc]⟩
  · intro h
    simp [confirmExtension, FindExtensions, h]
  · intro E
    unfold DeleteResource
    cases h : txDelete s.resources id with
    | error e => simp [h]
    | ok rows => simp [h, Except.map]

/-- Witness for C5: a registry holding "volume" accepts kind "volume"
and rejects kind "web". -/
theorem confirmExtension_policy_witness :
    confirmExtension { resources := [], extensions := ["volume"] }
        { ID := "r1", Name := "n1", Kind := "volume", Custom := [] } = Except.ok () ∧
    CreateResource { resources := [], extensions := ["volume"] }
        { ID := "r2", Name := "n2", Kind := "web", Custom := [] } =
      Except.error (StoreError.kindUnregistered "web") :=
  ⟨(confirmExtension_policy { resources := [], extensions := ["volume"] }
      { ID := "r1", Name := "n1", Kind := "volume", Custom := [] } "x").2.2.1 (by decide),
    ((confirmExtension_policy { resources := [], extensions := ["volume"] }
      { ID := "r2", Name := "n2", Kind := "web", Custom := [] } "x").2.1 (by decide)).2.1⟩

/-- C6 counterexample: `Save` does not preserve entries already present
in the snapshot's Resources field — it overwrites the field with the
export, so a pre-existing entry is discarded. -/
theorem save_overwrites_cex :
    Save { resources := [{ ID := "rB", Name := "nB", Kind := "volume", Custom := [] }],
           extensions := [] }
        { Resources := [{ ID := "rA", Name := "nA", Kind := "volume", Custom := [] }] } =
      Except.ok { Resources := [{ ID := "rB", Name := "nB", Kind := "volume", Custom := [] }] } ∧
    ([{ ID := "rB", Name := "nB", Kind := "volume", Custom := [] }] : List Resource) ≠
      [{ ID := "rA", Name := "nA", Kind := "volume", Custom := [] }] ++
        [{ ID := "rB", Name := "nB", Kind := "volume", Custom := [] }] := by
  exact ⟨rfl, by decide⟩

/-- C6 (amended): `Save` replaces the snapshot's Resources field with a
full export of all rows, obtained via Find with the match-everything
selector, and never fails (the underlying full read cannot fail). -/
theorem save_spec (s : StoreState) (snapshot : StoreSnapshot) :
    Save s snapshot = Except.ok { Resources := s.resources } ∧
    FindResources s By.all = Except.ok s.resources :=
  ⟨rfl, rfl⟩

/-- C7 counterexample: the match-everything selector is outside the
five-mode set vetted by the table's type guard (the guard rejects it),
yet `FindResources` succeeds on it instead of failing with
InvalidQuery. -/
theorem findResources_all_accepted_cex :
    FindResources { resources := [{ ID := "r1", Name := "n1", Kind := "volume", Custom := [] }],
                    extensions := [] } By.all =
      Except.ok [{ ID := "r1", Name := "n1", Kind := "volume", Custom := [] }] ∧
    resourceCheckType By.all = Except.error StoreError.invalidQuery :=
  ⟨rfl, rfl⟩

/-- C7 (amended): `FindResources` accepts the five table selector modes
(by-ID-prefix, by-name, by-kind, by-custom, by-custom-prefix) and the
match-everything selector, which the transaction layer handles
generically without consulting the table's type guard; every other
selector fails with the InvalidQuery error before collecting any
results. -/
theorem findResources_selector_policy (s : StoreState) (p n k v c i : String) :
    FindResources s (By.byIDPfx p) = Except.ok (s.resources.filter (matchesBy (By.byIDPfx p))) ∧
    FindResources s (By.byName n) = Except.ok (s.resources.filter (matchesBy (By.byName n))) ∧
    FindResources s (By.byKind k) = Except.ok (s.resources.filter (matchesBy (By.byKind k))) ∧
    FindResources s (By.byCustom v) = Except.ok (s.resources.filter (matchesBy (By.byCustom v))) ∧
    FindResources s (By.byCustomPfx c) =
      Except.ok (s.resources.filter (matchesBy (By.byCustomPfx c))) ∧
    FindResources s By.all = Except.ok s.resources ∧
    FindResources s (By.byService i) = Except.error StoreError.invalidQuery ∧
    (∀ b, b ≠ By.all → resourceCheckType b = Except.error StoreError.invalidQuery →
      FindResources s b = Except.error StoreError.invalidQuery) := by
  refine ⟨rfl, rfl, rfl, rfl, rfl, rfl, rfl, ?_⟩
  intro b hb hc
  cases b with
  | all => exact absurd rfl hb
  | byIDPfx p => exact Except.noConfusion hc
  | byName n => exact Except.noConfusion hc
  | byKind k => exact Except.noConfusion hc
  | byCustom v => exact Except.noConfusion hc
  | byCustomPfx c => exact Except.noConfusion hc
  | byService i => rfl

/-- Witness for C7 at a concrete unsupported selector. -/
theorem findResources_selector_policy_witness :
    FindResources { resources := [], extensions := [] } (By.byService "q") =
      Except.error StoreError.invalidQuery :=
  (findResources_selector_policy { resources := [], extensions := [] }
      "" "" "" "" "" "z").2.2.2.2.2.2.2 (By.byService "q")
    (fun h => By.noConfusion h) rfl

theorem find_append_last (l : List Resource) (r : Resource) (p : Resource → Bool)
    (h : ∀ x ∈ l, p x = false) (hr : p r = true) : List.find? p (l ++ [r]) = some r := by
  induction l with
  | nil => simp [List.find?, hr]
  | cons a as ih =>
    have ha : p a = false := h a (List.mem_cons_self a as)
    rw [List.cons_append, List.find?]
    rw [ha]
    exact ih (fun x hx => h x (List.mem_cons_of_mem a hx))

/-- C3: a valid `CreateResource` (registered kind, fresh ID and Name)
succeeds; `GetResource` on the new state returns the created object; a
second `CreateResource` with the same ID fails with AlreadyExists. -/
theorem createResource_then_get (s : StoreState) (r : Resource)
    (hk : r.Kind ∈ s.extensions)
    (hid : ∀ x ∈ s.resources, x.ID ≠ r.ID)
    (hname : ∀ x ∈ s.resources, x.Name ≠ r.Name) :
    CreateResource s r = Except.ok { s with resources := s.resources ++ [r] } ∧
    GetResource { s with resources := s.resources ++ [r] } r.ID = some r ∧
    CreateResource { s with resources := s.resources ++ [r] } r =
      Except.error StoreError.alreadyExists := by
  have hconf := confirmExtension_ok_of_mem s r hk
  have hany : (s.resources.any fun x => x.ID = r.ID || x.Name = r.Name) = false := by
    apply List.any_eq_false.mpr
    intro x hx
    simp only [Bool.or_eq_true, decide_eq_true_eq, not_or]
    exact ⟨hid x hx, hname x hx⟩
  refine ⟨?_, ?_, ?_⟩
  · simp [CreateResource, hconf, txCreate, hany]
  · unfold GetResource txGet
    apply find_append_last
    · intro x hx
      exact decide_eq_false (hid x hx)
    · simp
  · have hconf2 : confirmExtension { s with resources := s.resources ++ [r] } r =
        Except.ok () := confirmExtension_ok_of_mem _ r hk
    have hany2 : ((s.resources ++ [r]).any fun x => x.ID = r.ID || x.Name = r.Name) = true := by
      apply List.any_eq_true.mpr
      exact ⟨r, List.mem_append_right _ (List.mem_cons_self r []), by simp⟩
    simp [CreateResource, hconf2, txCreate, hany2]

/-- Witness for C3: creating a volume resource in an empty table. -/
theorem createResource_then_get_witness :
    ("volume" : String) ∈ (["volume"] : List String) ∧
    CreateResource { resources := [], extensions := ["volume"] }
        { ID := "r1", Name := "vol-a", Kind := "volume", Custom := [] } =
      Except.ok { resources := [{ ID := "r1", Name := "vol-a", Kind := "volume", Custom := [] }],
                  extensions := ["volume"] } ∧
    GetResource { resources := [{ ID := "r1", Name := "vol-a", Kind := "volume", Custom := [] }],
                  extensions := ["volume"] } "r1" =
      some { ID := "r1", Name := "vol-a", Kind := "volume", Custom := [] } ∧
    CreateResource { resources := [{ ID := "r1", Name := "vol-a", Kind := "volume", Custom := [] }],
                     extensions := ["volume"] }
        { ID := "r1", Name := "vol-a", Kind := "volume", Custom := [] } =
      Except.error StoreError.alreadyExists := by
  have h := createResource_then_get { resources := [], extensions := ["volume"] }
    { ID := "r1", Name := "vol-a", Kind := "volume", Custom := [] }
    (by decide)
    (fun x hx => absurd hx (List.not_mem_nil x))
    (fun x hx => absurd hx (List.not_mem_nil x))
  exact ⟨by decide, h.1, h.2.1, h.2.2⟩

/-- C8 counterexample: an Update whose ID is absent but whose Kind is
also unregistered fails with the KindUnregistered error, not NotFound —
the kind check runs first. -/
theorem updateResource_unregistered_kind_cex :
    GetResource { resources := [], extensions := ["volume"] } "r9" = none ∧
    UpdateResource { resources := [], extensions := ["volume"] }
        { ID := "r9", Name := "n9", Kind := "web", Custom := [] } =
      Except.error (StoreError.kindUnregistered "web") ∧
    StoreError.kindUnregistered "web" ≠ StoreError.notFound := by
  refine ⟨rfl, ?_, by decide⟩
  have h := confirmExtension_err_of_not_mem { resources := [], extensions := ["volume"] }
    { ID := "r9", Name := "n9", Kind := "web", Custom := [] } (by decide)
  unfold UpdateResource
  rw [h]

/-- C8 (amended): `UpdateResource` of a resource whose ID is absent and
whose Kind resolves to a registered extension fails with the NotFound
error and never yields a new state (rows and index entries
unchanged). -/
theorem updateResource_notFound (s : StoreState) (r : Resource)
    (hk : r.Kind ∈ s.extensions) (hid : ∀ x ∈ s.resources, x.ID ≠ r.ID) :
    UpdateResource s r = Except.error StoreError.notFound ∧
    ∀ s2, UpdateResource s r ≠ Except.ok s2 := by
  have hconf := confirmExtension_ok_of_mem s r hk
  have hany : (s.resources.any fun x => x.ID = r.ID) = false := by
    apply List.any_eq_false.mpr
    intro x hx
    simp only [decide_eq_true_eq]
    exact hid x hx
  have h1 : UpdateResource s r = Except.error StoreError.notFound := by
    simp [UpdateResource, hconf, txUpdate, hany]
  exact ⟨h1, fun s2 hc => by rw [h1] at hc; exact Except.noConfusion hc⟩

/-- Witness for C8: updating an absent ID with a registered kind. -/
theorem updateResource_notFound_witness :
    ("volume" : String) ∈ (["volume"] : List String) ∧
    UpdateResource { resources := [], extensions := ["volume"] }
        { ID := "r9", Name := "n9", Kind := "volume", Custom := [] } =
      Except.error StoreError.notFound :=
  ⟨by decide,
    (updateResource_notFound { resources := [], extensions := ["volume"] }
      { ID := "r9", Name := "n9", Kind := "volume", Custom := [] } (by decide)
      (fun x hx => absurd hx (List.not_mem_nil x))).1⟩

/-- C1: under the ID-uniqueness invariant of the stored rows, `Restore`
behaves exactly as wiping the table and then running the create loop
over the snapshot rows in snapshot order (each create performing the
referential kind check, any per-row error aborting); on success the
rows are exactly the snapshot rows and every snapshot row's kind passed
the check. -/
theorem restore_spec (s : StoreState) (snapshot : StoreSnapshot)
    (hnd : (s.resources.map Resource.ID).Nodup) :
    Restore s snapshot = createList { s with resources := [] } snapshot.Resources ∧
    ∀ s2, Restore s snapshot = Except.ok s2 →
      s2.resources = snapshot.Resources ∧ s2.extensions = s.extensions ∧
      ∀ r ∈ snapshot.Resources, confirmExtension s r = Except.ok () := by
  have h1 : Restore s snapshot = createList { s with resources := [] } snapshot.Resources := by
    rw [restore_unfold, deleteList_wipe s.resources s rfl hnd]
  refine ⟨h1, ?_⟩
  intro s2 h2
  rw [h1] at h2
  obtain ⟨hres, hext, hconf⟩ :=
    createList_ok_inv snapshot.Resources { s with resources := [] } s2 h2
  refine ⟨by simpa using hres, hext, fun r hr => ?_⟩
  rw [← confirmExtension_congr { s with resources := [] } s r rfl]
  exact hconf r hr

/-- Witness for C1: restoring a one-row snapshot over a one-row
table. -/
theorem restore_spec_witness :
    (([{ ID := "r1", Name := "n1", Kind := "volume", Custom := [] }] : List Resource).map
      Resource.ID).Nodup ∧
    Restore { resources := [{ ID := "r1", Name := "n1", Kind := "volume", Custom := [] }],
              extensions := ["volume"] }
        { Resources := [{ ID := "r2", Name := "n2", Kind := "volume", Custom := [] }] } =
      createList { resources := [], extensions := ["volume"] }
        [{ ID := "r2", Name := "n2", Kind := "volume", Custom := [] }] :=
  ⟨by decide,
    (restore_spec { resources := [{ ID := "r1", Name := "n1", Kind := "volume", Custom := [] }],
                    extensions := ["volume"] }
      { Resources := [{ ID := "r2", Name := "n2", Kind := "volume", Custom := [] }] }
      (by decide)).1⟩

theorem append_term_pfx (z : Char) : ∀ l1 l2 : List Char,
    z ∉ l2 → (l1 ++ [z]) <+: (l2 ++ [z]) → l1 = l2 := by
  intro l1 l2
  induction l2 generalizing l1 with
  | nil =>
    intro _ h
    have hlen := h.length_le
    simp only [List.length_append, List.length_cons, List.length_nil] at hlen
    have h0 : l1.length = 0 := by omega
    exact List.eq_nil_of_length_eq_zero h0
  | cons b bs ih =>
    intro hz h
    cases l1 with
    | nil =>
      have hzb : z = b := (List.cons_prefix_cons.mp h).1
      cases hzb
      exact absurd (List.mem_cons_self z bs) hz
    | cons a as =>
      obtain ⟨hab, htail⟩ := List.cons_prefix_cons.mp h
      have hbs : z ∉ bs := fun hmem => hz (List.mem_cons_of_mem b hmem)
      rw [hab, ih as hbs htail]

/-- C9 counterexample: for a kind that itself contains the null byte,
the null-terminated key of a shorter kind sharing the same leading
bytes is still a strict prefix of the longer kind's key, so the
terminator does not rule out the match for every pair of kinds. -/
theorem kindIndexer_nullbyte_cex :
    ((resourceIndexerByKindFromObject { ID := "", Name := "", Kind := "a", Custom := [] }).2 <+:
      (resourceIndexerByKindFromObject { ID := "", Name := "", Kind := "a\x00b", Custom := [] }).2) ∧
    ("a" : String) ≠ "a\x00b" ∧
    ("a" : String).data <+: ("a\x00b" : String).data := by
  refine ⟨⟨['b', Char.ofNat 0], by decide⟩, by decide, ⟨[Char.ofNat 0, 'b'], by decide⟩⟩

/-- C9 (amended): the kind indexer deterministically produces the
object's Kind followed by a terminating null byte, and for kinds that do
not contain the null byte a prefix match between kind keys forces the
kinds to be equal — the terminator rules out matching a longer kind
sharing the same leading bytes. -/
theorem kindIndexer_spec (r1 r2 : Resource)
    (hfree1 : Char.ofNat 0 ∉ r1.Kind.data) (hfree2 : Char.ofNat 0 ∉ r2.Kind.data) :
    resourceIndexerByKindFromObject r1 = (true, r1.Kind.data ++ [Char.ofNat 0]) ∧
    ((resourceIndexerByKindFromObject r1).2 <+: (resourceIndexerByKindFromObject r2).2 →
      r1.Kind = r2.Kind) := by
  refine ⟨rfl, ?_⟩
  intro h
  exact String.ext (append_term_pfx (Char.ofNat 0) r1.Kind.data r2.Kind.data hfree2 h)

/-- Witness for C9 on null-free kinds. -/
theorem kindIndexer_spec_witness :
    Char.ofNat 0 ∉ ("ab" : String).data ∧
    resourceIndexerByKindFromObject { ID := "", Name := "", Kind := "ab", Custom := [] } =
      (true, ("ab" : String).data ++ [Char.ofNat 0]) :=
  ⟨by decide,
    (kindIndexer_spec { ID := "", Name := "", Kind := "ab", Custom := [] }
      { ID := "", Name := "", Kind := "ab", Custom := [] } (by decide) (by decide)).1⟩
